import Mathlib

/-!
Verification development for the MinecraftResourcePackMaker module.

The Python source is shallowly embedded: filesystem paths become lists of
name segments, directory trees become explicit lists of file and directory
paths, the SQLite `assigned_files` table becomes an association list keyed by
`user_id`, and the floating-point size arithmetic of `process_image` is
modelled exactly by rationals.  External collaborators (Discord delivery,
the PIL/pydub codecs) enter the model only through their outcome, passed as
an explicit parameter where the code branches on success or failure.
-/

namespace RPM

/-- A filesystem path, as the list of its name segments. -/
structure FsPath where
  segments : List String
deriving DecidableEq, Repr

/-- Python `root / rel`: path join by segment concatenation. -/
def fsJoin (root p : FsPath) : FsPath := ⟨root.segments ++ p.segments⟩

/-- Python `Path.name`: the final component of the path. -/
def baseName (p : FsPath) : String :=
  match p.segments.getLast? with
  | some s => s
  | none => ""

/-- Python `PurePath.suffix` of a component name: the substring starting at
the last dot, unless that dot is the first or the last character of the
name, in which case the suffix is empty. -/
def pySuffix (name : String) : String :=
  let cs := name.data
  match ((List.range cs.length).filter (fun i => cs.get? i = some '.')).getLast? with
  | none => ""
  | some i => if 0 < i ∧ i < cs.length - 1 then String.mk (cs.drop i) else ""

/-- Python `Path.parents` of a relative path, as path values: every proper
ancestor, from the whole path down to the empty path (Python's `.`). -/
def pyParents (p : FsPath) : List FsPath :=
  (List.range p.segments.length).map (fun n => ⟨p.segments.take n⟩)

/-- Python equality between a `pathlib` path object and a `str`:
`PurePath.__eq__` returns `NotImplemented` for a non-path operand, the
reflected `str` comparison does the same, and the interpreter falls back to
identity, so the comparison is always false.  `get_models` tests
`"models" in path.parents`, which elementwise performs exactly this
comparison. -/
def pathEqStr (_p : FsPath) (_s : String) : Bool := false

/-- An extracted directory tree: the root-relative paths of its regular
files (what `root.rglob("*")` restricted to `is_file` visits) and of its
directories. -/
structure FileTree where
  files : List FsPath
  dirs : List FsPath
deriving DecidableEq, Repr

/-- Embedding of `get_resources(root)`: every regular file below `root`,
yielded as a full root-joined path. -/
def get_resources (root : FsPath) (t : FileTree) : List FsPath :=
  t.files.map (fun p => fsJoin root p)

/-- Embedding of `get_sounds(root)`: the resources whose suffix is `.ogg`. -/
def get_sounds (root : FsPath) (t : FileTree) : List FsPath :=
  (get_resources root t).filter (fun p => pySuffix (baseName p) = ".ogg")

/-- Embedding of `get_textures(root)`: when the directory
`root/assets/minecraft` exists the search is re-rooted there (realms
textures are excluded), then the resources whose suffix is `.png` are
yielded.  A file below the re-rooted directory is yielded at the same
absolute path either way, so re-rooting is modelled by filtering on the
segment prefix. -/
def get_textures (root : FsPath) (t : FileTree) : List FsPath :=
  let sub : FsPath := ⟨["assets", "minecraft"]⟩
  if t.dirs.contains sub then
    ((t.files.filter (fun p => sub.segments.isPrefixOf p.segments)).map
        (fun p => fsJoin root p)).filter
      (fun p => pySuffix (baseName p) = ".png")
  else
    (get_resources root t).filter (fun p => pySuffix (baseName p) = ".png")

/-- Embedding of `get_models(root)`: the resources whose suffix is `.json`
and for which `"models" in path.parents` holds, the membership test
comparing the string against each parent path via `pathEqStr`. -/
def get_models (root : FsPath) (t : FileTree) : List FsPath :=
  (get_resources root t).filter
    (fun p => decide (pySuffix (baseName p) = ".json") &&
      (pyParents p).any (fun q => pathEqStr q ("models")))

/-- Embedding of the size computation of `process_image` (source lines
74-82), with the branch assignments substituted: when
`new_x / original_x > new_y / original_y` the code sets
`new_x = new_y * original_x / original_y`, otherwise it sets
`new_y = new_x * original_y / original_x`; both axes are then mapped
through `round(v // original) * original`.  Python float arithmetic is
modelled exactly by rationals, and `round(v // o)` on a nonnegative value
is `⌊v / o⌋` (float floor-division followed by `round` on an
integer-valued float). -/
def process_image_size (ox oy w h : ℕ) : ℤ × ℤ :=
  if (w : ℚ) / (ox : ℚ) > (h : ℚ) / (oy : ℚ) then
    (⌊(h : ℚ) * (ox : ℚ) / (oy : ℚ) / (ox : ℚ)⌋ * (ox : ℤ),
      ⌊(h : ℚ) / (oy : ℚ)⌋ * (oy : ℤ))
  else
    (⌊(w : ℚ) / (ox : ℚ)⌋ * (ox : ℤ),
      ⌊(w : ℚ) * (oy : ℚ) / (ox : ℚ) / (oy : ℚ)⌋ * (oy : ℤ))

/-- A row of the SQLite `assigned_files` table: `(user_id, file_path)`,
with `user_id` declared `INTEGER PRIMARY KEY`. -/
abbrev AssignDB := List (ℤ × FsPath)

/-- Query `SELECT user_id FROM assigned_files WHERE file_path = ?` followed by
`fetchone()`: the user of the first row whose path matches, if any. -/
def selectUserByPath (db : AssignDB) (p : FsPath) : Option ℤ :=
  (db.find? (fun r => r.2 = p)).map (fun r => r.1)

/-- Statement `INSERT OR REPLACE INTO assigned_files (user_id, file_path)`: with
`user_id` the primary key, any existing row for that user is replaced. -/
def insertOrReplace (db : AssignDB) (user : ℤ) (p : FsPath) : AssignDB :=
  db.filter (fun r => r.1 ≠ user) ++ [(user, p)]

/-- Statement `DELETE FROM assigned_files WHERE file_path = ?`. -/
def deleteByPath (db : AssignDB) (p : FsPath) : AssignDB :=
  db.filter (fun r => r.2 ≠ p)

/-- Outcome of the direct-message send inside `assign_file` (external
messaging layer): either it succeeds or it raises `discord.Forbidden`. -/
inductive Delivery
  | ok
  | forbidden
deriving DecidableEq, Repr

/-- User-visible outcome of `ResourcePackCreatorView.assign_file`. -/
inductive AssignResult
  | alreadyAssigned (uid : ℤ)
  | dmForbidden
  | assigned
deriving DecidableEq, Repr

/-- Embedding of `ResourcePackCreatorView.assign_file` (source lines
302-354): look the path up in `assigned_files`; if a row exists raise
`RuntimeError("File already assigned to …")` naming the existing claimant;
otherwise insert-or-replace the row keyed by the requesting user and
commit.  Only then is the file delivered by direct message; on
`discord.Forbidden` the handler replies and returns without touching the
database again. -/
def assign_file (db : AssignDB) (user : ℤ) (p : FsPath) (d : Delivery) :
    AssignResult × AssignDB :=
  match selectUserByPath db p with
  | some uid => (.alreadyAssigned uid, db)
  | none =>
    match d with
    | .forbidden => (.dmForbidden, insertOrReplace db user p)
    | .ok => (.assigned, insertOrReplace db user p)

/-- Embedding of `ResourcePackCreatorView.not_taken`: filter a resource
sequence down to the paths without a row in `assigned_files`, the taken
set being the stored relative paths joined onto `root`. -/
def not_taken (db : AssignDB) (root : FsPath) (resources : List FsPath) : List FsPath :=
  resources.filter (fun p => !(db.map (fun r => fsJoin root r.2)).contains p)

/-- The per-pack mutable state touched by `submit_file`: the
`original_assets` tree, the `new_assets` tree and the assignment table. -/
structure PackState where
  original_assets : FileTree
  new_assets : FileTree
  db : AssignDB
deriving DecidableEq, Repr

/-- Effect of `new_path.parent.mkdir(parents=True, exist_ok=True)` followed by
writing `new_path`: the missing ancestor directories and the file are
recorded in the tree. -/
def writeFile (t : FileTree) (p : FsPath) : FileTree :=
  { files := if t.files.contains p then t.files else t.files ++ [p]
    dirs := t.dirs ++ (pyParents p).filter (fun q => !t.dirs.contains q) }

/-- Effect of `if original_path.is_file(): original_path.unlink()`. -/
def unlinkIfFile (t : FileTree) (p : FsPath) : FileTree :=
  { t with files := t.files.filter (fun q => q ≠ p) }

/-- Completion check performed by `submit_file` (source line 273):
`not tuple(get_resources(original_root))`. -/
def pack_is_complete (original_root : FsPath) (original : FileTree) : Bool :=
  (get_resources original_root original).isEmpty

/-- User-visible outcome of `ResourcePackMaker.submit_file`. -/
inductive SubmitOutcome
  | notAssigned
  | saveFailed
  | submitted (packReady : Bool)
deriving DecidableEq, Repr

/-- The state produced by an accepted submission (source lines 248-264):
write the normalized bytes under `new_assets`, unlink the original file,
and delete the assignment row for the path. -/
def acceptSubmission (st : PackState) (p : FsPath) : PackState :=
  { original_assets := unlinkIfFile st.original_assets p
    new_assets := writeFile st.new_assets p
    db := deleteByPath st.db p }

/-- Embedding of `ResourcePackMaker.submit_file` (source lines 222-282):
look up the claimant of the serialized path; when absent or different from
the submitting user reply "This file is no longer assigned to you." and
return with nothing mutated.  Otherwise run `save_uploaded_file`, whose
media processing is performed by external codecs and is passed here as its
outcome `processed`; an exception is caught, reported, and leaves the state
unmutated.  On success the three effects of `acceptSubmission` are applied
and the completion check is evaluated on the resulting `original_assets`
tree. -/
def submit_file (root : FsPath) (st : PackState) (serialized_path : FsPath)
    (user : ℤ) (processed : Except Unit Unit) : SubmitOutcome × PackState :=
  match selectUserByPath st.db serialized_path with
  | none => (.notAssigned, st)
  | some uid =>
    if uid = user then
      match processed with
      | .error _ => (.saveFailed, st)
      | .ok _ =>
        (.submitted (pack_is_complete (fsJoin root ⟨["original_assets"]⟩)
            (acceptSubmission st serialized_path).original_assets),
          acceptSubmission st serialized_path)
    else (.notAssigned, st)

/-- Modelled from the spec's words, not from the source: the files of
distributable kinds, i.e. the kinds handed out for replacement by the two
claim buttons — textures and sounds.  Model files are catalogued but never
distributed. -/
def spec_distributable_files (root : FsPath) (t : FileTree) : List FsPath :=
  get_textures root t ++ get_sounds root t

/-- A concrete pack root used by concrete instances. -/
def root0 : FsPath := ⟨["storage", "1234", "original_assets"]⟩

/-- A concrete texture path. -/
def stonePath : FsPath := ⟨["assets", "minecraft", "textures", "block", "stone.png"]⟩

/-- A second concrete texture path, distinct from `stonePath`. -/
def grassPath : FsPath := ⟨["assets", "minecraft", "textures", "block", "grass.png"]⟩

/-- A tree whose only file is a model definition: it contains no
distributable file. -/
def modelOnlyTree : FileTree :=
  { files := [⟨["models", "block.json"]⟩], dirs := [⟨["models"]⟩] }

example : pySuffix ("block.json") = ".json" := by decide

/-- Floor of a quotient of natural-number casts is natural division. -/
lemma floor_natCast_div (a b : ℕ) :
    ⌊(a : ℚ) / (b : ℚ)⌋ = ((a / b : ℕ) : ℤ) := by
  rw [← Int.natCast_floor_eq_floor (by positivity), Nat.floor_div_eq_div]

/-- Rational comparison of the two scale-up quotients transfers to their
natural-division floors. -/
lemma natDiv_le_of_ratCast_div_le {w ox h oy : ℕ}
    (hle : (w : ℚ) / (ox : ℚ) ≤ (h : ℚ) / (oy : ℚ)) : w / ox ≤ h / oy := by
  have hf := Int.floor_le_floor hle
  rw [floor_natCast_div, floor_natCast_div] at hf
  exact_mod_cast hf

/-- Characterization of the size computation: both axes receive the shared
multiple `min (w / ox) (h / oy)` (natural division). -/
lemma process_image_size_eq (ox oy w h : ℕ) (hx : 0 < ox) (hy : 0 < oy) :
    process_image_size ox oy w h =
      (((min (w / ox) (h / oy) * ox : ℕ) : ℤ), ((min (w / ox) (h / oy) * oy : ℕ) : ℤ)) := by
  have hx' : (ox : ℚ) ≠ 0 := Nat.cast_ne_zero.mpr hx.ne'
  have hy' : (oy : ℚ) ≠ 0 := Nat.cast_ne_zero.mpr hy.ne'
  unfold process_image_size
  split
  · next hcmp =>
    have key : (h : ℚ) * (ox : ℚ) / (oy : ℚ) / (ox : ℚ) = (h : ℚ) / (oy : ℚ) := by
      field_simp
      ring
    have hmin : min (w / ox) (h / oy) = h / oy :=
      min_eq_right (natDiv_le_of_ratCast_div_le (le_of_lt hcmp))
    rw [key, floor_natCast_div, hmin]
    simp only [Prod.mk.injEq]
    constructor <;> push_cast <;> ring
  · next hcmp =>
    have key : (w : ℚ) * (oy : ℚ) / (ox : ℚ) / (oy : ℚ) = (w : ℚ) / (ox : ℚ) := by
      field_simp
      ring
    have hmin : min (w / ox) (h / oy) = w / ox :=
      min_eq_left (natDiv_le_of_ratCast_div_le (not_lt.mp hcmp))
    rw [key, floor_natCast_div, hmin]
    simp only [Prod.mk.injEq]
    constructor <;> push_cast <;> ring

/-- C1 (counterexample): for an original of size 16×16 and a submission of
size 48×32 the image transform does not produce an output of size 48×32. -/
theorem c1_larger_axis_rule_false :
    ¬ process_image_size 16 16 48 32 = (48, 32) := by
  rw [process_image_size_eq 16 16 48 32 (by decide) (by decide)]
  decide

/-- C1 (amended): for an original of size 16×16 and a submission of size
48×32 the image transform produces 32×32 — the axis with the smaller
scale-up ratio (y, ratio 2) determines the shared multiple, the other axis
is reduced to preserve the original aspect, and both dimensions become
2·16 = 32. -/
theorem c1_output_is_32x32 :
    process_image_size 16 16 48 32 = (32, 32) := by
  rw [process_image_size_eq 16 16 48 32 (by decide) (by decide)]
  decide

/-- C7 (code evaluated at the failing input): for an original of size 16×16
and a submission of size 8×8 the size computation degenerates to the target
(0, 0); the code contains no validation rejecting it and hands the
zero-sized target straight to the resize call. -/
theorem c7_degenerate_zero_target :
    process_image_size 16 16 8 8 = (0, 0) := by
  rw [process_image_size_eq 16 16 8 8 (by decide) (by decide)]
  decide

/-- C9: a submission whose dimensions equal the original's normalizes to an
output of exactly the original dimensions (the chosen multiple is 1). -/
theorem c9_roundtrip_same_size (ox oy : ℕ) (hx : 0 < ox) (hy : 0 < oy) :
    process_image_size ox oy ox oy = ((ox : ℤ), (oy : ℤ)) := by
  rw [process_image_size_eq ox oy ox oy hx hy]
  rw [Nat.div_self hx, Nat.div_self hy]
  simp

/-- Witness for C9 at the concrete original size 16×16. -/
theorem c9_roundtrip_same_size_witness :
    ((0 : ℕ) < 16 ∧ (0 : ℕ) < 16) ∧
      process_image_size 16 16 16 16 = ((16 : ℤ), (16 : ℤ)) :=
  ⟨⟨by decide, by decide⟩, c9_roundtrip_same_size 16 16 (by decide) (by decide)⟩

/-- C10: for every decodable submission of size (w, h) and original of size
(ox, oy), both output axes receive the same multiple
k = min (w / ox) (h / oy) (natural division, i.e. the floor of the smaller
scale-up ratio), so the output is (k·ox, k·oy) and always has exactly the
original's aspect ratio. -/
theorem c10_single_shared_multiple (ox oy w h : ℕ) (hx : 0 < ox) (hy : 0 < oy) :
    process_image_size ox oy w h =
      (((min (w / ox) (h / oy) * ox : ℕ) : ℤ), ((min (w / ox) (h / oy) * oy : ℕ) : ℤ)) :=
  process_image_size_eq ox oy w h hx hy

/-- Witness for C10 at original 16×16 and submission 48×32. -/
theorem c10_single_shared_multiple_witness :
    ((0 : ℕ) < 16 ∧ (0 : ℕ) < 16) ∧
      process_image_size 16 16 48 32 =
        (((min (48 / 16) (32 / 16) * 16 : ℕ) : ℤ), ((min (48 / 16) (32 / 16) * 16 : ℕ) : ℤ)) :=
  ⟨⟨by decide, by decide⟩, c10_single_shared_multiple 16 16 48 32 (by decide) (by decide)⟩

/-- C8 (code evaluated): the model enumeration is empty for every root and
every tree — the membership test `"models" in path.parents` compares a
string against path objects and never succeeds, so no file is ever
yielded, contradicting the claim that trees containing a `.json` file
under a `models` segment give a non-empty enumeration. -/
theorem c8_get_models_always_empty (root : FsPath) (t : FileTree) :
    get_models root t = [] := by
  unfold get_models
  apply List.filter_eq_nil_iff.mpr
  intro a _
  simp [pathEqStr]

/-- C4: a claim request on a path that already has a live record reports the
existing claimant and performs no mutation of the store (in particular a
record is inserted only when no existing record references the path). -/
theorem c4_claim_conflict_no_mutation (db : AssignDB) (u v : ℤ) (p : FsPath)
    (d : Delivery) (h : selectUserByPath db p = some v) :
    assign_file db u p d = (.alreadyAssigned v, db) := by
  unfold assign_file
  rw [h]

/-- Witness for C4: user 9 requests `stonePath`, already claimed by user 3. -/
theorem c4_claim_conflict_no_mutation_witness :
    selectUserByPath [((3 : ℤ), stonePath)] stonePath = some 3 ∧
      assign_file [((3 : ℤ), stonePath)] 9 stonePath .ok =
        (.alreadyAssigned 3, [((3 : ℤ), stonePath)]) :=
  ⟨by decide, c4_claim_conflict_no_mutation [((3 : ℤ), stonePath)] 9 3 stonePath .ok (by decide)⟩

/-- C3 (code evaluated at the failing input): user 1 claims `stonePath` on an
empty store and the direct-message delivery fails with `Forbidden`; the
handler returns without releasing, so the just-written record survives,
the asset still has claimant 1, and it does not reappear in the next
candidate-set computation. -/
theorem c3_failed_delivery_claim_not_released :
    (assign_file [] 1 stonePath .forbidden).1 = .dmForbidden ∧
      selectUserByPath (assign_file [] 1 stonePath .forbidden).2 stonePath = some 1 ∧
      not_taken (assign_file [] 1 stonePath .forbidden).2 root0 [fsJoin root0 stonePath] = [] := by
  decide

/-- C5: if a user holding an active claim on A successfully claims a
different unclaimed asset B, the user-keyed insert-or-replace overwrites
A's record: the store afterward holds exactly one record for that user,
referencing B, and no record referencing A remains at all. -/
theorem c5_upsert_overwrites_prior_claim (db : AssignDB) (u : ℤ) (A B : FsPath)
    (hA : selectUserByPath db A = some u)
    (hA' : ∀ r ∈ db, r.2 = A → r.1 = u)
    (hB : selectUserByPath db B = none) :
    ((assign_file db u B .ok).2.filter (fun r => r.1 = u)) = [(u, B)] ∧
      ((assign_file db u B .ok).2.filter (fun r => r.2 = A)) = [] := by
  have hBA : B ≠ A := by
    intro e
    rw [e, hA] at hB
    exact Option.noConfusion hB
  have hdb : (assign_file db u B .ok).2 = insertOrReplace db u B := by
    unfold assign_file
    rw [hB]
  rw [hdb]
  unfold insertOrReplace
  constructor
  · rw [List.filter_append]
    have h1 : (db.filter (fun r => r.1 ≠ u)).filter (fun r => r.1 = u) = [] := by
      apply List.filter_eq_nil_iff.mpr
      intro a ha
      have h2 := (List.mem_filter.mp ha).2
      simp only [decide_eq_true_eq, ne_eq, decide_not, Bool.not_eq_true] at h2 ⊢
      simpa using h2
    rw [h1]
    simp
  · rw [List.filter_append]
    have h1 : (db.filter (fun r => r.1 ≠ u)).filter (fun r => r.2 = A) = [] := by
      apply List.filter_eq_nil_iff.mpr
      intro a ha
      obtain ⟨hmem, hne⟩ := List.mem_filter.mp ha
      simp only [ne_eq, decide_not, Bool.not_eq_true, decide_eq_true_eq] at hne ⊢
      intro h2
      exact absurd (hA' a hmem h2) (by simpa using hne)
    rw [h1]
    simp [hBA]

/-- Witness for C5: user 1 holds `stonePath` and then claims `grassPath`. -/
theorem c5_upsert_overwrites_prior_claim_witness :
    (selectUserByPath [((1 : ℤ), stonePath)] stonePath = some 1 ∧
        selectUserByPath [((1 : ℤ), stonePath)] grassPath = none) ∧
      ((assign_file [((1 : ℤ), stonePath)] 1 grassPath .ok).2.filter (fun r => r.1 = 1)) =
          [((1 : ℤ), grassPath)] ∧
      ((assign_file [((1 : ℤ), stonePath)] 1 grassPath .ok).2.filter
          (fun r => r.2 = stonePath)) = [] :=
  ⟨⟨by decide, by decide⟩,
    c5_upsert_overwrites_prior_claim [((1 : ℤ), stonePath)] 1 stonePath grassPath
      (by decide) (by decide) (by decide)⟩

/-- C6: a submission whose correlation token resolves to a path with no
claimant, or a claimant different from the submitting user, is rejected with
the "no longer assigned" reply and the whole pack state — original tree,
new tree and assignment store — is returned unchanged. -/
theorem c6_foreign_submission_rejected (root : FsPath) (st : PackState) (p : FsPath)
    (u : ℤ) (proc : Except Unit Unit)
    (h : selectUserByPath st.db p ≠ some u) :
    submit_file root st p u proc = (.notAssigned, st) := by
  unfold submit_file
  split
  · rfl
  · next uid hsel =>
    have hne : ¬ uid = u := fun e => h (by rw [hsel, e])
    rw [if_neg hne]

/-- A concrete pack state whose store is empty: one original texture, no
replacements, no assignments. -/
def st0 : PackState :=
  { original_assets := { files := [stonePath], dirs := [⟨["assets"]⟩, ⟨["assets", "minecraft"]⟩] }
    new_assets := { files := [], dirs := [] }
    db := [] }

/-- Witness for C6: user 5 submits for `stonePath`, which has no claimant. -/
theorem c6_foreign_submission_rejected_witness :
    selectUserByPath st0.db stonePath ≠ some 5 ∧
      submit_file root0 st0 stonePath 5 (Except.ok ()) = (.notAssigned, st0) :=
  ⟨by decide, c6_foreign_submission_rejected root0 st0 stonePath 5 (Except.ok ()) (by decide)⟩

/-- C2 (counterexample): a pack whose `original_assets` tree holds exactly
one model file `models/block.json` contains zero distributable files, yet
the completion check is false — it counts every remaining file, not only
distributable ones. -/
theorem c2_complete_check_counts_nondistributable :
    ¬ (pack_is_complete root0 modelOnlyTree = true ↔
        spec_distributable_files root0 modelOnlyTree = []) := by
  decide

/-- C2 (amended): the completion check evaluated after every accepted
submission is true iff the `original_assets` subtree contains zero files of
any kind, distributable or not. -/
theorem c2_accepted_flag_iff_tree_empty (root : FsPath) (st : PackState) (p : FsPath)
    (u : ℤ) (proc : Except Unit Unit) (c : Bool) (st' : PackState)
    (h : submit_file root st p u proc = (.submitted c, st')) :
    c = true ↔ st'.original_assets.files = [] := by
  unfold submit_file at h
  split at h
  · exact absurd h (by simp)
  · next uid hsel =>
    by_cases hu : uid = u
    · rw [if_pos hu] at h
      split at h
      · exact absurd h (by simp)
      · rw [Prod.mk.injEq] at h
        obtain ⟨h1, h2⟩ := h
        injection h1 with h1
        subst h2
        rw [← h1]
        unfold pack_is_complete get_resources
        simp
    · rw [if_neg hu] at h
      exact absurd h (by simp)

/-- A concrete pack state one accepted submission away from completion:
`stonePath` is its only original file and is assigned to user 7. -/
def st1 : PackState :=
  { original_assets := { files := [stonePath], dirs := [⟨["assets"]⟩, ⟨["assets", "minecraft"]⟩] }
    new_assets := { files := [], dirs := [] }
    db := [((7 : ℤ), stonePath)] }

/-- Witness for C2 (amended): user 7 submits the last original file; the
check reports completion and the tree is indeed empty. -/
theorem c2_accepted_flag_iff_tree_empty_witness :
    submit_file root0 st1 stonePath 7 (Except.ok ()) =
        (.submitted true, acceptSubmission st1 stonePath) ∧
      (true = true ↔ (acceptSubmission st1 stonePath).original_assets.files = []) :=
  ⟨by decide,
    c2_accepted_flag_iff_tree_empty root0 st1 stonePath 7 (Except.ok ()) true
      (acceptSubmission st1 stonePath) (by decide)⟩

end RPM
